import Mathlib

/-!
# Verification of the keyword-discovery job scheduler

Shallow embedding of the continuous keyword-search job scheduler of the
`ai-keywords-search` repository: the scoring formulas
(`keyword.service.js`, `opportunity.service.js`), the per-cycle executor,
the keyword-generation strategies, and the job lifecycle state machine
(`jobRunner.service.js`), together with the HTTP-level validation of job
creation (`routes` for `/api/jobs`).

Numbers are embedded as rationals (`ℚ`); JavaScript's `Math.round` is
`jsRound` below (round half towards positive infinity, which is what
`Math.round` does for every real input).
-/

namespace KeywordJobs

/-- JavaScript `Math.round`: nearest integer, halves round up. -/
def jsRound (q : ℚ) : ℤ := ⌊q + 1/2⌋

/-- JavaScript `String.prototype.toLowerCase` (ASCII mapping, applied
characterwise). -/
def jsToLower (s : String) : String := String.mk (s.data.map Char.toLower)

/-- JavaScript `String.prototype.trim`: strip whitespace from both
ends. -/
def jsTrim (s : String) : String :=
  String.mk (((s.data.dropWhile Char.isWhitespace).reverse.dropWhile
    Char.isWhitespace).reverse)

/-- One app row of a ranked app-store search result
(`{rating, ratingCount}` as consumed by the scoring code; the
JavaScript null-guard `app.rating || 0` is represented by the field
itself, `0` standing for a missing value). -/
structure AppResult where
  rating : ℚ
  ratingCount : ℚ
deriving DecidableEq, Repr

/-- One autocomplete suggestion `{keyword, position, priority}`. -/
structure Suggestion where
  keyword : String
  position : ℚ
  priority : ℚ
deriving DecidableEq, Repr

/-- `KeywordService.calculateDifficulty` from `keyword.service.js`:
weighted sum of average rating (15), normalized average rating count
(35), top-3 app strength (30) and competitor count factor (20), capped
at 100 and rounded; `10` when there are no search results. -/
def calculateDifficulty (searchResults : List AppResult) : ℤ :=
  if searchResults.isEmpty then 10
  else
    let n : ℚ := searchResults.length
    let avgRating := ((searchResults.map AppResult.rating).sum) / n
    let fromRating := avgRating / 5 * 15
    let avgRatingCount := ((searchResults.map AppResult.ratingCount).sum) / n
    let fromRatingCount := min (avgRatingCount / 100000) 1 * 35
    let topApps := searchResults.take 3
    let topAppScore :=
      ((topApps.map (fun a => a.rating / 5 * (3/10) +
          min (a.ratingCount / 500000) 1 * (7/10))).sum) / 3
    let fromTopApps := topAppScore * 30
    let fromCompetitors := min (n / 10) 1 * 20
    jsRound (min (fromRating + fromRatingCount + fromTopApps + fromCompetitors) 100)

/-- `KeywordService.estimatePopularity` from `keyword.service.js`:
base 5, autocomplete-position bonus `max 0 (50 - 5·position)` plus a
priority bonus capped at 25 (skipped when the priority is falsy, i.e.
`0`), a rating-count bonus capped at 20, a length bonus, then rounded
and clamped to 100. -/
def estimatePopularity (keyword : String) (suggestions : List Suggestion)
    (searchResults : List AppResult) : ℤ :=
  let fromSuggestion : ℚ :=
    match suggestions.find? (fun s => jsToLower s.keyword = jsToLower keyword) with
    | none => 0
    | some m =>
        max 0 (50 - m.position * 5) +
          (if m.priority ≠ 0 then min (m.priority / 2) 25 else 0)
  let fromResults : ℚ :=
    if searchResults.isEmpty then 0
    else
      min (((searchResults.map AppResult.ratingCount).sum) / searchResults.length / 10000) 20
  let fromLength : ℚ :=
    if keyword.length ≤ 5 then 10 else if keyword.length ≤ 10 then 5 else 0
  min (jsRound (5 + fromSuggestion + fromResults + fromLength)) 100

/-- `OpportunityService.calculateOpportunityScore` from
`opportunity.service.js` (the discovery/filtering path): difficulty
sweet-spot factor `1` up to 30, `0.7 - ((d-30)/30)·0.4` from 30 to 60,
`0.3` above, combined 60/40 with normalized popularity. -/
def calculateOpportunityScore (popularity difficulty : ℚ) : ℤ :=
  let popScore := popularity / 100
  let diffScore : ℚ :=
    if difficulty ≤ 30 then 1
    else if difficulty ≤ 60 then 7/10 - (difficulty - 30) / 30 * (4/10)
    else 3/10
  jsRound ((popScore * (6/10) + diffScore * (4/10)) * 100)

/-- The claimed form of the discovery opportunity score, written from the
spec's words: `diffScore` is claimed to interpolate linearly from `1.0`
down to `0.3` over `30 < difficulty ≤ 60`. -/
def claimedOpportunityScore (popularity difficulty : ℚ) : ℤ :=
  let diffScore : ℚ :=
    if difficulty ≤ 30 then 1
    else if difficulty ≤ 60 then 1 - (difficulty - 30) / 30 * (7/10)
    else 3/10
  jsRound (popularity / 100 * (6/10) * 100 + diffScore * (4/10) * 100)

/-- The discovery opportunity score as amended: over `30 < d ≤ 60` the
difficulty factor is the linear interpolation taking value `0.7` at 30
and `0.3` at 60, written in two-endpoint interpolation form. -/
def amendedOpportunityScore (popularity difficulty : ℚ) : ℤ :=
  let diffScore : ℚ :=
    if difficulty ≤ 30 then 1
    else if difficulty ≤ 60 then
      ((7/10) * (60 - difficulty) + (3/10) * (difficulty - 30)) / 30
    else 3/10
  jsRound (popularity / 100 * (6/10) * 100 + diffScore * (4/10) * 100)

/-- The per-job-Result stored opportunity score from
`JobRunnerService.executeCycle`: `(popularity/difficulty)·10` when
`difficulty > 0`, else `0`, then `Math.round(x·10)/10` (one decimal). -/
def storedOpportunityScore (popularity difficulty : ℚ) : ℚ :=
  let score : ℚ := if 0 < difficulty then popularity / difficulty * 10 else 0
  (jsRound (score * 10) : ℚ) / 10

/-- The claimed form of the stored per-Result score, written from the
spec's words: `round((popularity/difficulty)×10)` with difficulty
treated as `1` when it is zero. -/
def claimedStoredScore (popularity difficulty : ℚ) : ℚ :=
  (jsRound (popularity / (if difficulty = 0 then 1 else difficulty) * 10) : ℚ)

/-- The stored per-Result score as amended: one-decimal rounding of the
ratio score, and a hard `0` (not `popularity·10`) when the difficulty is
not positive. -/
def amendedStoredScore (popularity difficulty : ℚ) : ℚ :=
  if 0 < difficulty then (jsRound (popularity * 100 / difficulty) : ℚ) / 10 else 0

/-- Job lifecycle status (`pending`/`running`/`paused`/`completed`;
`failed` exists in the data model but no code path sets it). -/
inductive JobStatus where
  | pending
  | running
  | paused
  | completed
  | failed
deriving DecidableEq, Repr

/-- The analysis tuple returned by `keywordService.analyzeKeyword` as
consumed by the cycle executor. -/
structure Analysis where
  popularity : ℚ
  difficulty : ℚ
  competitorCount : ℕ
deriving DecidableEq, Repr

/-- One `KeywordSearchResult` row as written by `executeCycle`
(success rows carry the analysis numbers and the stored opportunity
score; error rows carry the captured message). -/
structure ResultRow where
  keyword : String
  cycleNumber : ℕ
  rowStatus : String
  errorMessage : Option String
  popularity : Option ℚ
  difficulty : Option ℚ
  opportunityScore : Option ℚ
deriving DecidableEq, Repr

/-- The success row written for keyword `kw` in cycle `cyc`. -/
def successRow (kw : String) (cyc : ℕ) (a : Analysis) : ResultRow :=
  { keyword := kw
    cycleNumber := cyc
    rowStatus := "success"
    errorMessage := none
    popularity := some a.popularity
    difficulty := some a.difficulty
    opportunityScore := some (storedOpportunityScore a.popularity a.difficulty) }

/-- The error row written for keyword `kw` in cycle `cyc` when analyzing
it threw with message `msg`. -/
def errorRow (kw : String) (cyc : ℕ) (msg : String) : ResultRow :=
  { keyword := kw
    cycleNumber := cyc
    rowStatus := "error"
    errorMessage := some msg
    popularity := none
    difficulty := none
    opportunityScore := none }

/-- The per-keyword loop of `executeCycle` over the generated keywords:
skip a keyword when its lowercase form is already in the used-set;
otherwise analyze it (`analyze` is the external
`keywordService.analyzeKeyword` call, which may throw) and record
either a success row, pushing the lowercase keyword onto the used-set,
or an error row, leaving the used-set alone; in both cases continue
with the remaining keywords. Returns the updated used-set and the
created result rows in creation order. -/
def runKeywords (analyze : String → Except String Analysis) (cyc : ℕ)
    (used : List String) : List String → List String × List ResultRow
  | [] => (used, [])
  | kw :: rest =>
    if used.contains (jsToLower kw) then runKeywords analyze cyc used rest
    else
      match analyze kw with
      | .ok a =>
          let p := runKeywords analyze cyc (used ++ [jsToLower kw]) rest
          (p.1, successRow kw cyc a :: p.2)
      | .error msg =>
          let p := runKeywords analyze cyc used rest
          (p.1, errorRow kw cyc msg :: p.2)

/-- The durable state of one `KeywordSearchJob` (immutable config plus
mutable progress), with its result rows attached. -/
structure Job where
  name : String
  searchesPerBatch : ℕ
  intervalMinutes : ℕ
  totalCycles : ℕ
  country : String
  strategy : String
  status : JobStatus
  currentCycle : ℕ
  usedKeywords : List String
  totalKeywords : ℕ
  results : List ResultRow
deriving DecidableEq, Repr

/-- `JobRunnerService.executeCycle`: when no keywords were generated the
cycle returns early without touching the job; otherwise it runs the
per-keyword loop and commits the updated used-set, the cycle number and
the keyword total in one progress write, appending the new result rows. -/
def executeCycle (analyze : String → Except String Analysis) (cyc : ℕ)
    (generated : List String) (j : Job) : Job :=
  if generated.isEmpty then j
  else
    let p := runKeywords analyze cyc j.usedKeywords generated
    { j with
        usedKeywords := p.1
        currentCycle := cyc
        totalKeywords := p.1.length
        results := j.results ++ p.2 }

/-- `JobRunnerService.completeJob`: unconditionally marks the job
`completed`. -/
def completeJob (j : Job) : Job :=
  { j with status := .completed }

/-- Scheduler state for one job: the durable job row plus the armed
interval timer, represented by the closure's `cycleCount` variable
(`none` when no timer is armed). -/
structure Sched where
  job : Job
  timer : Option ℕ
deriving DecidableEq, Repr

/-- Errors surfaced by the job-management operations. -/
inductive JobError where
  | notFound
  | alreadyRunning
  | notRunning
deriving DecidableEq, Repr

/-- `JobRunnerService.executeJob`: computes the resumption cycle
`max(currentCycle, 0) + 1`; if it does not exceed `totalCycles`,
executes it immediately and arms the interval timer at that count,
otherwise marks the job completed without running any cycle. `gen` is
the keyword batch produced by `generateKeywords` for the immediate
cycle. -/
def executeJob (analyze : String → Except String Analysis)
    (gen : List String) (s : Sched) : Sched :=
  let startCycle := s.job.currentCycle + 1
  if startCycle ≤ s.job.totalCycles then
    { job := executeCycle analyze startCycle gen s.job, timer := some startCycle }
  else
    { job := completeJob s.job, timer := none }

/-- `JobRunnerService.startJob`: fails with `alreadyRunning` when the
job is already running; otherwise sets the status to `running` and runs
`executeJob`. -/
def startJob (analyze : String → Except String Analysis)
    (gen : List String) (s : Sched) : Except JobError Sched :=
  if s.job.status = .running then .error .alreadyRunning
  else .ok (executeJob analyze gen { s with job := { s.job with status := .running } })

/-- `JobRunnerService.stopJob`: fails with `notRunning` unless the job
is running; otherwise clears the timer and sets the status to `paused`,
leaving every other field alone. -/
def stopJob (s : Sched) : Except JobError Sched :=
  if s.job.status = .running then
    .ok { job := { s.job with status := .paused }, timer := none }
  else .error .notRunning

/-- One firing of the interval callback armed by `executeJob`: the
closure increments its cycle count, re-reads the job and exits clearing
the timer when the job is no longer running; completes the job when the
count passed `totalCycles`; otherwise executes the next cycle. -/
def tick (analyze : String → Except String Analysis)
    (gen : List String) (s : Sched) : Sched :=
  match s.timer with
  | none => s
  | some cc =>
    let next := cc + 1
    if s.job.status ≠ .running then { s with timer := none }
    else if s.job.totalCycles < next then { job := completeJob s.job, timer := none }
    else { job := executeCycle analyze next gen s.job, timer := some next }

/-- The request body of `POST /api/jobs` (fields absent from the
request are `none`; numeric fields arrive as integers after
`isInt` validation). -/
structure JobConfigInput where
  name : String
  searchesPerBatch : Option ℕ
  intervalMinutes : Option ℕ
  totalCycles : Option ℕ
  country : Option String
  strategy : Option String
  seedCategory : Option String
deriving DecidableEq, Repr

/-- The express-validator chain on `POST /api/jobs`: non-empty trimmed
name; `searchesPerBatch` in 1–10, `intervalMinutes` in 1–1440,
`totalCycles` in 1–1000 when present; two-letter country; strategy in
the three-value enum when present. -/
def validateCreateJob (c : JobConfigInput) : Bool :=
  (jsTrim c.name ≠ "" : Bool) &&
  (match c.searchesPerBatch with
   | none => true
   | some v => decide (1 ≤ v) && decide (v ≤ 10)) &&
  (match c.intervalMinutes with
   | none => true
   | some v => decide (1 ≤ v) && decide (v ≤ 1440)) &&
  (match c.totalCycles with
   | none => true
   | some v => decide (1 ≤ v) && decide (v ≤ 1000)) &&
  (match c.country with
   | none => true
   | some v => decide (v.length = 2)) &&
  (match c.strategy with
   | none => true
   | some v => decide (v = "random") || decide (v = "category") || decide (v = "trending"))

/-- `JobRunnerService.createJob`: fills in the documented defaults and
persists a fresh job in status `pending` with an empty used-keyword
set and cycle counter `0`. The route's sanitizers have already trimmed
the name and lowercased the country. -/
def createJob (c : JobConfigInput) : Job :=
  { name := c.name
    searchesPerBatch := c.searchesPerBatch.getD 1
    intervalMinutes := c.intervalMinutes.getD 15
    totalCycles := c.totalCycles.getD 10
    country := c.country.getD "us"
    strategy := c.strategy.getD "random"
    status := .pending
    currentCycle := 0
    usedKeywords := []
    totalKeywords := 0
    results := [] }

/-- The sanitizers of the validator chain: `body('name').trim()` and
`body('country')....toLowerCase()`. -/
def sanitizeBody (c : JobConfigInput) : JobConfigInput :=
  { c with
      name := jsTrim c.name
      country := c.country.map jsToLower }

/-- The `POST /api/jobs` handler: reject with HTTP 400 when validation
fails, otherwise create the job from the sanitized body. -/
def postCreateJob (c : JobConfigInput) : Except ℕ Job :=
  if validateCreateJob c then .ok (createJob (sanitizeBody c))
  else .error 400

/-- The filter applied to every provider batch: the lowercased-trimmed
form must be non-empty (JS truthiness), must not be in the job's
used-set, and the raw string must not already be collected in this
call. -/
def kwFilter (used acc : List String) (batch : List String) : List String :=
  batch.filter (fun kw =>
    !(jsTrim (jsToLower kw) == "") && !(used.contains (jsTrim (jsToLower kw))) && !(acc.contains kw))

/-- The `random` strategy loop: one provider call per drawn category
(`resps` holds the provider's answer to each call, a batch or a thrown
error); stops early once `count` keywords are collected; an erroring
category is skipped; each successful batch is filtered and truncated to
`⌈count/3⌉` before being appended. -/
def randomLoop (count : ℕ) (used : List String) :
    List (Except String (List String)) → List String → List String
  | [], acc => acc
  | r :: rs, acc =>
    if count ≤ acc.length then acc
    else
      match r with
      | .error _ => randomLoop count used rs acc
      | .ok batch =>
          randomLoop count used rs (acc ++ (kwFilter used acc batch).take ((count + 2) / 3))

/-- The `category` strategy loop: up to three provider attempts (a
thrown attempt also counts), each successful batch filtered and appended
without truncation; stops once `count` keywords are collected. -/
def categoryLoop (count : ℕ) (used : List String) :
    ℕ → List (Except String (List String)) → List String → List String
  | 0, _, acc => acc
  | _, [], acc => acc
  | fuel + 1, r :: rs, acc =>
    if count ≤ acc.length then acc
    else
      match r with
      | .error _ => categoryLoop count used fuel rs acc
      | .ok batch => categoryLoop count used fuel rs (acc ++ kwFilter used acc batch)

/-- The `trending` strategy loop: one provider call per trending
category, each successful batch filtered and truncated to the
per-category share before being appended; stops once `count` keywords
are collected. -/
def trendingLoop (count per : ℕ) (used : List String) :
    List (Except String (List String)) → List String → List String
  | [], acc => acc
  | r :: rs, acc =>
    if count ≤ acc.length then acc
    else
      match r with
      | .error _ => trendingLoop count per used rs acc
      | .ok batch =>
          trendingLoop count per used rs (acc ++ (kwFilter used acc batch).take per)

/-- JavaScript `[...new Set(keywords)]`: keep the first occurrence of
every string, preserving insertion order. -/
def jsSetDedup (l : List String) : List String :=
  l.foldl (fun acc a => if a ∈ acc then acc else acc ++ [a]) []

/-- The strategy dispatch inside `JobRunnerService.generateKeywords`
(an unknown strategy yields nothing). `resps` is the behavior of the
external suggestion provider, one entry per call the strategy makes:
the `random` strategy draws `min(2·count, 15)` categories, `category`
makes at most three attempts, `trending` iterates the five fixed
trending categories. -/
def strategyKeywords (strategy : String) (count : ℕ) (used : List String)
    (resps : List (Except String (List String))) : List String :=
  if strategy = "random" then
    randomLoop count used (resps.take (min (count * 2) 15)) []
  else if strategy = "category" then
    categoryLoop count used 3 resps []
  else if strategy = "trending" then
    trendingLoop count ((count + 4) / 5) used (resps.take 5) []
  else []

/-- `JobRunnerService.generateKeywords`: run the configured strategy's
loop, then `[...new Set(keywords)].slice(0, count)` — deduplicate
keeping first occurrences and truncate to `count`. -/
def generateKeywords (strategy : String) (count : ℕ) (used : List String)
    (resps : List (Except String (List String))) : List String :=
  (jsSetDedup (strategyKeywords strategy count used resps)).take count

/-- One observable step of the scheduler on a job: a successful
`startJob` call (with whatever keyword batch and analyzer behavior the
environment supplies), a successful `stopJob` call, or the firing of
the armed interval timer. -/
inductive SchedStep : Sched → Sched → Prop where
  | start (analyze : String → Except String Analysis) (gen : List String)
      {s t : Sched} : startJob analyze gen s = .ok t → SchedStep s t
  | stop {s t : Sched} : stopJob s = .ok t → SchedStep s t
  | timerFire (analyze : String → Except String Analysis) (gen : List String)
      (s : Sched) : SchedStep s (tick analyze gen s)

/-- Scheduler states reachable from a freshly created job through any
sequence of start/stop/tick steps. -/
inductive Reachable : Sched → Prop where
  | created (c : JobConfigInput) : Reachable ⟨createJob c, none⟩
  | next {s t : Sched} : Reachable s → SchedStep s t → Reachable t

/-- The scheduler's cycle-counting invariant: the committed cycle never
exceeds the total, and an armed timer sits between the committed cycle
and the total. -/
def Inv (s : Sched) : Prop :=
  s.job.currentCycle ≤ s.job.totalCycles ∧
    ∀ cc, s.timer = some cc → s.job.currentCycle ≤ cc ∧ cc ≤ s.job.totalCycles

/-- A well-formed creation request (3 cycles, 2 searches per cycle). -/
def cfgSample : JobConfigInput :=
  { name := "job"
    searchesPerBatch := some 2
    intervalMinutes := some 1
    totalCycles := some 3
    country := some "us"
    strategy := some "random"
    seedCategory := none }

/-- A well-formed creation request with a single cycle. -/
def cfgOneCycle : JobConfigInput :=
  { name := "one"
    searchesPerBatch := some 1
    intervalMinutes := some 1
    totalCycles := some 1
    country := none
    strategy := none
    seedCategory := none }

/-- An analyzer whose external provider calls always throw. -/
def failingAnalyze : String → Except String Analysis :=
  fun _ => .error "provider down"

/-- An analyzer that always succeeds with popularity 15, difficulty 4. -/
def okAnalyze : String → Except String Analysis :=
  fun _ => .ok ⟨15, 4, 3⟩

/-- The sample job, already started. -/
def runningJob : Job := { createJob cfgSample with status := .running }

/-- A fresh single-cycle job under the scheduler. -/
def schedNewOne : Sched := ⟨createJob cfgOneCycle, none⟩

/-- `schedNewOne` after `startJob` where keyword generation produced no
keywords (the provider was erroring): the immediate cycle 1 returns
early, leaving `currentCycle = 0`, and the timer is armed at 1. -/
def schedStarted : Sched :=
  match startJob failingAnalyze [] schedNewOne with
  | .ok t => t
  | .error _ => schedNewOne

/-- `schedStarted` after the first timer firing: the closure's count
reaches 2 > totalCycles = 1, so the job is marked completed even though
`currentCycle` is still 0. -/
def schedDone : Sched := tick failingAnalyze [] schedStarted

/-- The sample success row written for popularity 15 and difficulty 4. -/
def sampleRow : ResultRow := successRow "kw" 1 ⟨15, 4, 3⟩

/-- The sample job under the scheduler while running, timer armed. -/
def runningSched : Sched := ⟨runningJob, some 1⟩

/-- The state reached by stopping `runningSched` and restarting it with
a single keyword whose analysis throws. -/
def resumedSample : Sched :=
  ⟨{ runningJob with
      status := .running
      currentCycle := 1
      results := [errorRow "kw" 1 "provider down"] }, some 1⟩

/-- A completed sample job (all 3 cycles committed). -/
def finishedSched : Sched :=
  ⟨{ createJob cfgSample with status := .completed, currentCycle := 3 }, none⟩

/-- An out-of-range creation request (`searchesPerBatch = 11`). -/
def cfgBad : JobConfigInput := { cfgSample with searchesPerBatch := some 11 }

/-- What the batch filter guarantees about a kept keyword: its
lowercase-trim form is non-empty and is not in the job's used-set. -/
def KwOk (used : List String) (kw : String) : Prop :=
  jsTrim (jsToLower kw) ≠ "" ∧ used.contains (jsTrim (jsToLower kw)) = false

lemma executeCycle_status (analyze : String → Except String Analysis)
    (cyc : ℕ) (gen : List String) (j : Job) :
    (executeCycle analyze cyc gen j).status = j.status := by
  unfold executeCycle; split <;> rfl

lemma executeCycle_totalCycles (analyze : String → Except String Analysis)
    (cyc : ℕ) (gen : List String) (j : Job) :
    (executeCycle analyze cyc gen j).totalCycles = j.totalCycles := by
  unfold executeCycle; split <;> rfl

lemma executeCycle_currentCycle (analyze : String → Except String Analysis)
    (cyc : ℕ) (gen : List String) (j : Job) :
    (executeCycle analyze cyc gen j).currentCycle = j.currentCycle ∨
      (executeCycle analyze cyc gen j).currentCycle = cyc := by
  unfold executeCycle; split
  · exact Or.inl rfl
  · exact Or.inr rfl

lemma executeCycle_currentCycle_le {j : Job}
    (analyze : String → Except String Analysis) {cyc : ℕ} (gen : List String)
    (h : j.currentCycle ≤ cyc) :
    (executeCycle analyze cyc gen j).currentCycle ≤ cyc := by
  rcases executeCycle_currentCycle analyze cyc gen j with hc | hc <;> rw [hc]
  exact h

lemma inv_mk_none {j : Job} (h : j.currentCycle ≤ j.totalCycles) :
    Inv ⟨j, none⟩ :=
  ⟨h, fun _ hcc => Option.noConfusion hcc⟩

lemma inv_mk_some {j : Job} {cc : ℕ} (h1 : j.currentCycle ≤ cc)
    (h2 : cc ≤ j.totalCycles) : Inv ⟨j, some cc⟩ := by
  refine ⟨le_trans h1 h2, ?_⟩
  intro cc2 hcc2
  obtain rfl : cc = cc2 := by simpa using hcc2
  exact ⟨h1, h2⟩

lemma inv_step {s t : Sched} (hs : Inv s) (h : SchedStep s t) : Inv t := by
  obtain ⟨hcur, htimer⟩ := hs
  cases h with
  | start analyze gen hok =>
      unfold startJob at hok
      by_cases hr : s.job.status = .running
      · simp [hr] at hok
      · simp only [if_neg hr, Except.ok.injEq] at hok
        subst hok
        unfold executeJob
        dsimp only
        by_cases hle : s.job.currentCycle + 1 ≤ s.job.totalCycles
        · rw [if_pos hle]
          refine inv_mk_some (executeCycle_currentCycle_le analyze gen (Nat.le_succ _)) ?_
          rw [executeCycle_totalCycles]
          exact hle
        · rw [if_neg hle]
          exact inv_mk_none (by simp only [completeJob]; exact hcur)
  | stop hok =>
      unfold stopJob at hok
      by_cases hr : s.job.status = .running
      · simp only [if_pos hr, Except.ok.injEq] at hok
        subst hok
        exact inv_mk_none hcur
      · simp [hr] at hok
  | timerFire analyze gen s =>
      cases htm : s.timer with
      | none =>
          simp only [tick, htm]
          exact ⟨hcur, htimer⟩
      | some cc =>
          obtain ⟨hc1, hc2⟩ := htimer cc htm
          simp only [tick, htm]
          by_cases hrun : s.job.status ≠ .running
          · rw [if_pos hrun]
            exact ⟨hcur, fun cc2 hcc2 => Option.noConfusion hcc2⟩
          · rw [if_neg hrun]
            by_cases hgt : s.job.totalCycles < cc + 1
            · rw [if_pos hgt]
              exact inv_mk_none (by simp only [completeJob]; exact hcur)
            · rw [if_neg hgt]
              push_neg at hgt
              refine inv_mk_some
                (executeCycle_currentCycle_le analyze gen (by omega)) ?_
              rw [executeCycle_totalCycles]
              exact hgt

lemma reachable_inv {s : Sched} (h : Reachable s) : Inv s := by
  induction h with
  | created c =>
      exact ⟨Nat.zero_le _, by intro cc hcc; simp at hcc⟩
  | next _ hstep ih => exact inv_step ih hstep

/-- C1: counterexample to `status == completed ↔ currentCycle ==
totalCycles`. A legal trace (create a 1-cycle job, start it while the
keyword generator returns an empty batch, let the timer fire once) ends
with the job `completed` while `currentCycle = 0 ≠ 1 = totalCycles`:
the completion write fires whenever the tick counter passes
`totalCycles`, regardless of which progress writes were committed. -/
theorem scheduler_completed_iff_cex :
    startJob failingAnalyze [] schedNewOne = .ok schedStarted ∧
    schedDone.job.status = .completed ∧
    schedDone.job.currentCycle = 0 ∧
    schedDone.job.totalCycles = 1 :=
  ⟨rfl, rfl, rfl, rfl⟩

/-- C1 (amended): for every scheduler state reachable by any sequence
of job creation, start, stop and timer-tick steps, `currentCycle ≤
totalCycles` holds; and once a job is `completed`, any further timer
tick leaves it `completed`. (The claimed equivalence `status =
completed ↔ currentCycle = totalCycles` does not hold, in either
direction: see the counterexample.) -/
theorem scheduler_invariant_amended :
    (∀ s : Sched, Reachable s → s.job.currentCycle ≤ s.job.totalCycles) ∧
    (∀ (analyze : String → Except String Analysis) (gen : List String)
      (s : Sched), s.job.status = .completed →
        (tick analyze gen s).job.status = .completed) := by
  constructor
  · intro s hs
    exact (reachable_inv hs).1
  · intro analyze gen s hc
    have hne : s.job.status ≠ .running := by
      rw [hc]
      exact fun hfalse => JobStatus.noConfusion hfalse
    cases htm : s.timer with
    | none => simpa [tick, htm] using hc
    | some cc =>
        simp only [tick, htm]
        rw [if_pos hne]
        exact hc

/-- Witness for C1 (amended): the invariant evaluated on a freshly
created job, and preservation of `completed` across a tick on a
concrete completed job. -/
theorem scheduler_invariant_amended_witness :
    ((⟨createJob cfgSample, none⟩ : Sched).job.currentCycle ≤
      (⟨createJob cfgSample, none⟩ : Sched).job.totalCycles) ∧
    (tick failingAnalyze []
      ⟨{ createJob cfgSample with status := .completed }, none⟩).job.status =
      .completed :=
  ⟨scheduler_invariant_amended.1 _ (Reachable.created cfgSample),
   scheduler_invariant_amended.2 failingAnalyze [] _ rfl⟩

lemma runKeywords_row_shape (analyze : String → Except String Analysis)
    (cyc : ℕ) :
    ∀ (kws used : List String) (row : ResultRow),
      row ∈ (runKeywords analyze cyc used kws).2 →
      (∃ kw a, analyze kw = .ok a ∧ row = successRow kw cyc a) ∨
      (∃ kw msg, analyze kw = .error msg ∧ row = errorRow kw cyc msg) := by
  intro kws
  induction kws with
  | nil =>
      intro used row hrow
      simp [runKeywords] at hrow
  | cons kw rest ih =>
      intro used row hrow
      simp only [runKeywords] at hrow
      by_cases hc : used.contains (jsToLower kw)
      · rw [if_pos hc] at hrow
        exact ih used row hrow
      · rw [if_neg hc] at hrow
        cases ha : analyze kw with
        | ok a =>
            rw [ha] at hrow
            dsimp only at hrow
            rcases List.mem_cons.mp hrow with hrow1 | hrow2
            · exact Or.inl ⟨kw, a, ha, hrow1⟩
            · exact ih _ row hrow2
        | error msg =>
            rw [ha] at hrow
            dsimp only at hrow
            rcases List.mem_cons.mp hrow with hrow1 | hrow2
            · exact Or.inr ⟨kw, msg, ha, hrow1⟩
            · exact ih _ row hrow2

lemma runKeywords_row_cycle {analyze : String → Except String Analysis}
    {cyc : ℕ} {kws used : List String} {row : ResultRow}
    (hrow : row ∈ (runKeywords analyze cyc used kws).2) :
    row.cycleNumber = cyc := by
  rcases runKeywords_row_shape analyze cyc kws used row hrow with
    ⟨kw, a, _, rfl⟩ | ⟨kw, msg, _, rfl⟩ <;> rfl

/-- C2 counterexample: a cycle in which the single keyword's analysis
throws stores the error row but does **not** add the keyword to the
job's used-keyword set (the push happens only in the success branch),
contradicting the claim that the keyword is still added. -/
theorem cycle_error_usedset_cex :
    (executeCycle failingAnalyze 1 ["bad"] runningJob).results =
      [errorRow "bad" 1 "provider down"] ∧
    (executeCycle failingAnalyze 1 ["bad"] runningJob).usedKeywords = [] :=
  ⟨rfl, rfl⟩

/-- C2 (amended): when analyzing one keyword of a cycle throws, an
error Result row carrying the captured message is stored and the cycle
continues with the remaining keywords exactly as it would have without
the failing keyword — in particular the failing keyword is **not**
added to the used-keyword set — and a cycle never changes the job's
status, so the failure is not escalated. -/
theorem cycle_error_isolation_amended :
    (∀ (analyze : String → Except String Analysis) (cyc : ℕ)
       (used : List String) (kw : String) (rest : List String) (msg : String),
       analyze kw = .error msg →
       used.contains (jsToLower kw) = false →
       runKeywords analyze cyc used (kw :: rest) =
         ((runKeywords analyze cyc used rest).1,
          errorRow kw cyc msg :: (runKeywords analyze cyc used rest).2)) ∧
    (∀ (analyze : String → Except String Analysis) (cyc : ℕ)
       (gen : List String) (j : Job),
       (executeCycle analyze cyc gen j).status = j.status) := by
  constructor
  · intro analyze cyc used kw rest msg ha hc
    simp only [runKeywords, hc, ha, Bool.false_eq_true, if_false]
  · intro analyze cyc gen j
    exact executeCycle_status analyze cyc gen j

/-- Witness for C2 (amended), on a concrete failing keyword. -/
theorem cycle_error_isolation_amended_witness :
    runKeywords failingAnalyze 1 [] ["bad"] =
      ((runKeywords failingAnalyze 1 [] []).1,
       errorRow "bad" 1 "provider down" :: (runKeywords failingAnalyze 1 [] []).2) ∧
    (executeCycle failingAnalyze 1 ["bad"] runningJob).status = runningJob.status :=
  ⟨cycle_error_isolation_amended.1 failingAnalyze 1 [] "bad" [] "provider down" rfl rfl,
   cycle_error_isolation_amended.2 failingAnalyze 1 ["bad"] runningJob⟩

lemma stored_eq_amended (p d : ℚ) :
    storedOpportunityScore p d = amendedStoredScore p d := by
  unfold storedOpportunityScore amendedStoredScore
  by_cases hd : 0 < d
  · simp only [if_pos hd]
    have harg : p / d * 10 * 10 = p * 100 / d := by ring
    rw [harg]
  · simp only [if_neg hd]
    norm_num [jsRound]

/-- C5 counterexample: a concrete cycle writes a success row whose
stored opportunity score is `37.5` (the code rounds to one decimal:
`Math.round(score·10)/10`), while the claimed formula
`round((popularity/difficulty)·10)` gives the integer `38`. -/
theorem result_row_stored_score_cex :
    runKeywords okAnalyze 1 [] ["kw"] = (["kw"], [sampleRow]) ∧
    sampleRow.opportunityScore = some (75/2) ∧
    claimedStoredScore 15 4 = 38 ∧
    (75/2 : ℚ) ≠ 38 := by
  refine ⟨rfl, ?_, ?_, by norm_num⟩
  · show some (storedOpportunityScore 15 4) = some (75/2)
    norm_num [storedOpportunityScore, jsRound]
  · norm_num [claimedStoredScore, jsRound]

/-- C5 (amended): every success row written by the per-keyword loop
stores `round(score·10)/10` — the ratio score `popularity/difficulty·10`
rounded to **one decimal place** (not to an integer) — where the score
is a hard `0` (not `popularity·10`) when the stored difficulty is not
positive. -/
theorem result_row_stored_score_amended :
    ∀ (analyze : String → Except String Analysis) (cyc : ℕ)
      (used kws : List String) (row : ResultRow),
      row ∈ (runKeywords analyze cyc used kws).2 →
      row.rowStatus = "success" →
      row.popularity.isSome ∧ row.difficulty.isSome ∧
        row.opportunityScore =
          some (amendedStoredScore (row.popularity.getD 0) (row.difficulty.getD 0)) := by
  intro analyze cyc used kws row hrow hs
  rcases runKeywords_row_shape analyze cyc kws used row hrow with
    ⟨kw, a, _, rfl⟩ | ⟨kw, msg, _, rfl⟩
  · exact ⟨rfl, rfl, by simp [successRow, stored_eq_amended]⟩
  · simp [errorRow] at hs

lemma sampleRow_mem : sampleRow ∈ (runKeywords okAnalyze 1 [] ["kw"]).2 :=
  List.mem_singleton.mpr rfl

/-- Witness for C5 (amended), on the concrete row of
`result_row_stored_score_cex`. -/
theorem result_row_stored_score_amended_witness :
    sampleRow.popularity.isSome ∧ sampleRow.difficulty.isSome ∧
      sampleRow.opportunityScore =
        some (amendedStoredScore (sampleRow.popularity.getD 0)
          (sampleRow.difficulty.getD 0)) :=
  result_row_stored_score_amended okAnalyze 1 [] ["kw"] sampleRow sampleRow_mem rfl

/-- C3: `stopJob` on a running job succeeds and changes nothing but the
status (set to `paused`) and the timer (cleared): `currentCycle`, the
used-keyword set and the stored results are untouched. A later
`startJob` resumes at exactly `currentCycle + 1`: every result row of
the resumed state is either an old row or a row of cycle
`currentCycle + 1`, and the committed cycle either stays (empty
keyword batch) or advances to `currentCycle + 1` — a previously
committed cycle is never re-executed. -/
theorem stop_frame_resume :
    ∀ s : Sched, s.job.status = .running →
      stopJob s = .ok ⟨{ s.job with status := .paused }, none⟩ ∧
      ∀ (analyze : String → Except String Analysis) (gen : List String)
        (t : Sched),
        startJob analyze gen ⟨{ s.job with status := .paused }, none⟩ = .ok t →
        (∀ row ∈ t.job.results,
           row ∈ s.job.results ∨ row.cycleNumber = s.job.currentCycle + 1) ∧
        (t.job.currentCycle = s.job.currentCycle ∨
         t.job.currentCycle = s.job.currentCycle + 1) := by
  intro s hr
  refine ⟨by unfold stopJob; rw [if_pos hr], ?_⟩
  intro analyze gen t hok
  unfold startJob at hok
  rw [if_neg (fun h => JobStatus.noConfusion h)] at hok
  rw [Except.ok.injEq] at hok
  subst hok
  unfold executeJob
  dsimp only
  by_cases hle : s.job.currentCycle + 1 ≤ s.job.totalCycles
  · rw [if_pos hle]
    dsimp only
    unfold executeCycle
    by_cases hg : gen.isEmpty
    · rw [if_pos hg]
      exact ⟨fun row h => Or.inl h, Or.inl rfl⟩
    · rw [if_neg hg]
      refine ⟨?_, Or.inr rfl⟩
      intro row hrowmem
      rcases List.mem_append.mp hrowmem with h1 | h2
      · exact Or.inl h1
      · exact Or.inr (runKeywords_row_cycle h2)
  · rw [if_neg hle]
    exact ⟨fun row h => Or.inl h, Or.inl rfl⟩

/-- Witness for C3 on a concrete running job. -/
theorem stop_frame_resume_witness :
    stopJob runningSched = .ok ⟨{ runningSched.job with status := .paused }, none⟩ ∧
    (resumedSample.job.currentCycle = runningSched.job.currentCycle ∨
     resumedSample.job.currentCycle = runningSched.job.currentCycle + 1) :=
  ⟨(stop_frame_resume runningSched rfl).1,
   ((stop_frame_resume runningSched rfl).2 failingAnalyze ["kw"] resumedSample rfl).2⟩

/-- C10: starting a job whose `currentCycle` already reached
`totalCycles` (in particular a completed job) raises no error: the
status is set to `running` and the immediate execution re-marks the job
`completed` without running any cycle, creating any result row, or
arming a timer — everything except the status is exactly as before. -/
theorem start_finished_job :
    ∀ (analyze : String → Except String Analysis) (gen : List String)
      (s : Sched),
      s.job.status ≠ .running →
      s.job.totalCycles ≤ s.job.currentCycle →
      startJob analyze gen s = .ok ⟨{ s.job with status := .completed }, none⟩ := by
  intro analyze gen s hs hfin
  unfold startJob
  rw [if_neg hs]
  unfold executeJob
  dsimp only
  rw [if_neg (by omega)]
  rfl

/-- Witness for C10 on a concrete completed job. -/
theorem start_finished_job_witness :
    startJob failingAnalyze [] finishedSched =
      .ok ⟨{ finishedSched.job with status := .completed }, none⟩ :=
  start_finished_job failingAnalyze [] finishedSched
    (fun h => JobStatus.noConfusion h) (by decide)

/-- C9: `POST /api/jobs` accepts exactly the configurations passing the
validator chain; on acceptance it persists a new job in status
`pending` with cycle counter `0`, empty used-keyword set and no result
rows, and the persisted configuration respects the documented bounds
(searches-per-cycle 1–10, interval 1–1440, total cycles 1–1000,
strategy in the three-value enum — the defaults used for absent fields
are in bounds); out-of-range configurations are rejected with
HTTP 400. -/
theorem create_job_validation :
    (∀ c : JobConfigInput, validateCreateJob c = true →
       postCreateJob c = .ok (createJob (sanitizeBody c)) ∧
       (createJob (sanitizeBody c)).status = .pending ∧
       (createJob (sanitizeBody c)).currentCycle = 0 ∧
       (createJob (sanitizeBody c)).usedKeywords = [] ∧
       (createJob (sanitizeBody c)).results = [] ∧
       (1 ≤ (createJob (sanitizeBody c)).searchesPerBatch ∧
        (createJob (sanitizeBody c)).searchesPerBatch ≤ 10) ∧
       (1 ≤ (createJob (sanitizeBody c)).intervalMinutes ∧
        (createJob (sanitizeBody c)).intervalMinutes ≤ 1440) ∧
       (1 ≤ (createJob (sanitizeBody c)).totalCycles ∧
        (createJob (sanitizeBody c)).totalCycles ≤ 1000) ∧
       ((createJob (sanitizeBody c)).strategy = "random" ∨
        (createJob (sanitizeBody c)).strategy = "category" ∨
        (createJob (sanitizeBody c)).strategy = "trending")) ∧
    (∀ c : JobConfigInput, validateCreateJob c = false →
       postCreateJob c = .error 400) := by
  constructor
  · intro c hv
    have hpost : postCreateJob c = .ok (createJob (sanitizeBody c)) := by
      simp [postCreateJob, hv]
    simp only [validateCreateJob, Bool.and_eq_true, decide_eq_true_eq] at hv
    obtain ⟨⟨⟨⟨⟨hname, hspb⟩, hint⟩, hcyc⟩, hcountry⟩, hstrat⟩ := hv
    refine ⟨hpost, rfl, rfl, rfl, rfl, ?_, ?_, ?_, ?_⟩
    · cases hsp : c.searchesPerBatch with
      | none => simp [createJob, sanitizeBody, hsp]
      | some v =>
          rw [hsp] at hspb
          simp only [Bool.and_eq_true, decide_eq_true_eq] at hspb
          simpa [createJob, sanitizeBody, hsp] using hspb
    · cases hiv : c.intervalMinutes with
      | none => simp [createJob, sanitizeBody, hiv]
      | some v =>
          rw [hiv] at hint
          simp only [Bool.and_eq_true, decide_eq_true_eq] at hint
          simpa [createJob, sanitizeBody, hiv] using hint
    · cases htc : c.totalCycles with
      | none => simp [createJob, sanitizeBody, htc]
      | some v =>
          rw [htc] at hcyc
          simp only [Bool.and_eq_true, decide_eq_true_eq] at hcyc
          simpa [createJob, sanitizeBody, htc] using hcyc
    · cases hst : c.strategy with
      | none => simp [createJob, sanitizeBody, hst]
      | some v =>
          rw [hst] at hstrat
          simp only [Bool.or_eq_true, decide_eq_true_eq] at hstrat
          simpa [createJob, sanitizeBody, hst, or_assoc] using hstrat
  · intro c hv
    simp [postCreateJob, hv]

/-- Witness for C9: the sample configuration is accepted and persisted
in `pending`; the out-of-range configuration is rejected with 400. -/
theorem create_job_validation_witness :
    (validateCreateJob cfgSample = true ∧
     postCreateJob cfgSample = .ok (createJob (sanitizeBody cfgSample)) ∧
     (createJob (sanitizeBody cfgSample)).status = .pending) ∧
    (validateCreateJob cfgBad = false ∧ postCreateJob cfgBad = .error 400) :=
  ⟨⟨by decide, (create_job_validation.1 cfgSample (by decide)).1,
    (create_job_validation.1 cfgSample (by decide)).2.1⟩,
   by decide, create_job_validation.2 cfgBad (by decide)⟩

lemma kwFilter_ok (used acc batch : List String) :
    ∀ kw ∈ kwFilter used acc batch, KwOk used kw := by
  intro kw h
  unfold kwFilter at h
  rw [List.mem_filter] at h
  obtain ⟨-, hcond⟩ := h
  simp only [Bool.and_eq_true, Bool.not_eq_true'] at hcond
  obtain ⟨⟨h1, h2⟩, -⟩ := hcond
  exact ⟨by simpa using h1, h2⟩

lemma randomLoop_ok (count : ℕ) (used : List String) :
    ∀ (rs : List (Except String (List String))) (acc : List String),
      (∀ kw ∈ acc, KwOk used kw) →
      ∀ kw ∈ randomLoop count used rs acc, KwOk used kw := by
  intro rs
  induction rs with
  | nil =>
      intro acc hacc kw h
      simp only [randomLoop] at h
      exact hacc kw h
  | cons r rs2 ih =>
      intro acc hacc kw h
      simp only [randomLoop] at h
      by_cases hlen : count ≤ acc.length
      · rw [if_pos hlen] at h
        exact hacc kw h
      · rw [if_neg hlen] at h
        cases r with
        | error e => exact ih acc hacc kw h
        | ok batch =>
            refine ih _ ?_ kw h
            intro kw2 h2
            rcases List.mem_append.mp h2 with h2a | h2b
            · exact hacc kw2 h2a
            · exact kwFilter_ok used acc batch kw2 (List.take_subset _ _ h2b)

lemma categoryLoop_ok (count : ℕ) (used : List String) :
    ∀ (fuel : ℕ) (rs : List (Except String (List String))) (acc : List String),
      (∀ kw ∈ acc, KwOk used kw) →
      ∀ kw ∈ categoryLoop count used fuel rs acc, KwOk used kw := by
  intro fuel
  induction fuel with
  | zero =>
      intro rs acc hacc kw h
      simp only [categoryLoop] at h
      exact hacc kw h
  | succ n ih =>
      intro rs acc hacc kw h
      cases rs with
      | nil =>
          simp only [categoryLoop] at h
          exact hacc kw h
      | cons r rs2 =>
          simp only [categoryLoop] at h
          by_cases hlen : count ≤ acc.length
          · rw [if_pos hlen] at h
            exact hacc kw h
          · rw [if_neg hlen] at h
            cases r with
            | error e => exact ih rs2 acc hacc kw h
            | ok batch =>
                refine ih rs2 _ ?_ kw h
                intro kw2 h2
                rcases List.mem_append.mp h2 with h2a | h2b
                · exact hacc kw2 h2a
                · exact kwFilter_ok used acc batch kw2 h2b

lemma trendingLoop_ok (count per : ℕ) (used : List String) :
    ∀ (rs : List (Except String (List String))) (acc : List String),
      (∀ kw ∈ acc, KwOk used kw) →
      ∀ kw ∈ trendingLoop count per used rs acc, KwOk used kw := by
  intro rs
  induction rs with
  | nil =>
      intro acc hacc kw h
      simp only [trendingLoop] at h
      exact hacc kw h
  | cons r rs2 ih =>
      intro acc hacc kw h
      simp only [trendingLoop] at h
      by_cases hlen : count ≤ acc.length
      · rw [if_pos hlen] at h
        exact hacc kw h
      · rw [if_neg hlen] at h
        cases r with
        | error e => exact ih acc hacc kw h
        | ok batch =>
            refine ih _ ?_ kw h
            intro kw2 h2
            rcases List.mem_append.mp h2 with h2a | h2b
            · exact hacc kw2 h2a
            · exact kwFilter_ok used acc batch kw2 (List.take_subset _ _ h2b)

lemma strategyKeywords_ok (strategy : String) (count : ℕ) (used : List String)
    (resps : List (Except String (List String))) :
    ∀ kw ∈ strategyKeywords strategy count used resps, KwOk used kw := by
  intro kw h
  unfold strategyKeywords at h
  split_ifs at h with h1 h2 h3
  · exact randomLoop_ok count used _ [] (by intro kw2 h2; cases h2) kw h
  · exact categoryLoop_ok count used 3 resps [] (by intro kw2 h2; cases h2) kw h
  · exact trendingLoop_ok count _ used _ [] (by intro kw2 h2; cases h2) kw h
  · cases h

lemma jsSetDedup_mem_aux :
    ∀ (l acc : List String) (x : String),
      (x ∈ l.foldl (fun a b => if b ∈ a then a else a ++ [b]) acc) ↔
        x ∈ acc ∨ x ∈ l := by
  intro l
  induction l with
  | nil => intro acc x; simp
  | cons b l2 ih =>
      intro acc x
      simp only [List.foldl_cons]
      rw [ih]
      by_cases hb : b ∈ acc
      · rw [if_pos hb]
        simp only [List.mem_cons]
        constructor
        · exact fun h => h.elim (fun h2 => Or.inl h2) (fun h2 => Or.inr (Or.inr h2))
        · rintro (h2 | rfl | h2)
          exacts [Or.inl h2, Or.inl hb, Or.inr h2]
      · rw [if_neg hb]
        simp only [List.mem_append, List.mem_singleton, List.mem_cons]
        tauto

lemma jsSetDedup_nodup_aux :
    ∀ (l acc : List String), acc.Nodup →
      (l.foldl (fun a b => if b ∈ a then a else a ++ [b]) acc).Nodup := by
  intro l
  induction l with
  | nil => intro acc h; exact h
  | cons b l2 ih =>
      intro acc h
      simp only [List.foldl_cons]
      by_cases hb : b ∈ acc
      · rw [if_pos hb]
        exact ih acc h
      · rw [if_neg hb]
        refine ih _ ?_
        rw [List.nodup_append]
        exact ⟨h, List.nodup_singleton b, by simpa [List.disjoint_singleton] using hb⟩

lemma jsSetDedup_mem {l : List String} {x : String} :
    x ∈ jsSetDedup l ↔ x ∈ l := by
  unfold jsSetDedup
  rw [jsSetDedup_mem_aux]
  simp

lemma jsSetDedup_nodup (l : List String) : (jsSetDedup l).Nodup :=
  jsSetDedup_nodup_aux l [] List.nodup_nil

/-- C4 counterexample: the generator's output is **not**
lowercase-trim normalized — the raw provider string is returned, the
normalization being applied only inside the dedup test. -/
theorem generate_keywords_normalization_cex :
    generateKeywords "random" 1 [] [Except.ok ["Fitness App"]] = ["Fitness App"] ∧
    jsToLower "Fitness App" ≠ "Fitness App" ∧
    jsTrim (jsToLower "Fitness App") ≠ "Fitness App" := by
  decide

/-- C4 (amended): for every strategy, count and used-set, and every
provider behavior, `generateKeywords` returns at most `count` pairwise
distinct raw provider strings, each of whose lowercase-**trim** form is
non-empty and absent from the used-set (the normalization is used only
for this membership test, not applied to the output); provider errors
or exhaustion only shorten the list — the call never throws. -/
theorem generate_keywords_contract_amended :
    ∀ (strategy : String) (count : ℕ) (used : List String)
      (resps : List (Except String (List String))),
      (generateKeywords strategy count used resps).length ≤ count ∧
      (generateKeywords strategy count used resps).Nodup ∧
      ∀ kw ∈ generateKeywords strategy count used resps,
        jsTrim (jsToLower kw) ≠ "" ∧
        used.contains (jsTrim (jsToLower kw)) = false := by
  intro strategy count used resps
  refine ⟨?_, ?_, ?_⟩
  · exact List.length_take_le _ _
  · exact (List.take_sublist _ _).nodup (jsSetDedup_nodup _)
  · intro kw h
    have h2 : kw ∈ jsSetDedup (strategyKeywords strategy count used resps) :=
      List.take_subset _ _ h
    rw [jsSetDedup_mem] at h2
    exact strategyKeywords_ok strategy count used resps kw h2

/-- Witness for C4 (amended) on a concrete `category` call: one
provider batch containing a fresh keyword and an already-used one. -/
theorem generate_keywords_contract_amended_witness :
    (generateKeywords "category" 2 ["a"] [Except.ok ["New One", "A"]]).length ≤ 2 ∧
    (generateKeywords "category" 2 ["a"] [Except.ok ["New One", "A"]]).Nodup ∧
    ("New One" ∈ generateKeywords "category" 2 ["a"] [Except.ok ["New One", "A"]] ∧
     jsTrim (jsToLower "New One") ≠ "" ∧
     (["a"] : List String).contains (jsTrim (jsToLower "New One")) = false) :=
  ⟨(generate_keywords_contract_amended "category" 2 ["a"] [Except.ok ["New One", "A"]]).1,
   (generate_keywords_contract_amended "category" 2 ["a"] [Except.ok ["New One", "A"]]).2.1,
   by decide,
   (generate_keywords_contract_amended "category" 2 ["a"]
     [Except.ok ["New One", "A"]]).2.2 "New One" (by decide)⟩

/-- C6 counterexample: at popularity 0, difficulty 45 the code computes
20 (its difficulty factor interpolates from `0.7`, not from `1.0`),
while the claimed formula gives 26. -/
theorem discovery_opportunity_formula_cex :
    calculateOpportunityScore 0 45 = 20 ∧
    claimedOpportunityScore 0 45 = 26 ∧
    calculateOpportunityScore 0 45 ≠ claimedOpportunityScore 0 45 := by
  refine ⟨?_, ?_, ?_⟩ <;>
    norm_num [calculateOpportunityScore, claimedOpportunityScore, jsRound]

/-- C6 (amended): for all integer popularity and difficulty inputs the
discovery-path opportunity score equals
`round((popularity/100)·0.6·100 + diffScore·0.4·100)` where `diffScore`
is `1.0` for difficulty ≤ 30, linearly interpolated from **0.7** down
to `0.3` over `30 < difficulty ≤ 60`, and `0.3` above 60. -/
theorem discovery_opportunity_formula_amended :
    ∀ p d : ℤ,
      calculateOpportunityScore (p : ℚ) (d : ℚ) =
        amendedOpportunityScore (p : ℚ) (d : ℚ) := by
  intro p d
  unfold calculateOpportunityScore amendedOpportunityScore
  dsimp only
  by_cases h1 : (d : ℚ) ≤ 30
  · rw [if_pos h1, if_pos h1]
    congr 1
    ring
  · by_cases h2 : (d : ℚ) ≤ 60
    · rw [if_neg h1, if_neg h1, if_pos h2, if_pos h2]
      congr 1
      ring
    · rw [if_neg h1, if_neg h1, if_neg h2, if_neg h2]
      congr 1
      ring

/-- C7 counterexample: for a single search result with rating 4.5 and
ratingCount 1,000,000, the difficulty is not 79: the top-app term
divides the strength sum by a hard-wired 3 even when fewer than three
apps exist, giving `13.5 + 35 + 9.7 + 2 = 60.2`. -/
theorem difficulty_example_cex :
    calculateDifficulty [⟨9/2, 1000000⟩] ≠ 79 := by
  norm_num [calculateDifficulty, jsRound]

/-- C7 (amended): for the single result with rating 4.5 and ratingCount
1,000,000 the difficulty is `round(13.5 + 35 + 9.7 + 2) = 60`: the
top-app strength `0.3·0.9 + 0.7·1 = 0.97` is divided by 3 (missing
apps count as zero), contributing `9.7`, not `28.8`. -/
theorem difficulty_example_amended :
    calculateDifficulty [⟨9/2, 1000000⟩] = 60 := by
  norm_num [calculateDifficulty, jsRound]

/-- C8 counterexample: for a keyword of length 6 at autocomplete
position 1 with priority 80 and average ratingCount 50,000, the
popularity is not 100: the sum `5 + 45 + 25 + 5 + 5 = 85` is already
below the clamp. -/
theorem popularity_example_cex :
    estimatePopularity "fitnes" [⟨"fitnes", 1, 80⟩] [⟨9/2, 50000⟩] ≠ 100 := by
  have h : ("fitnes".length) = 6 := rfl
  norm_num [estimatePopularity, jsRound, List.find?, h]

/-- C8 (amended): for a keyword of length 6 at autocomplete position 1
with priority 80 and average ratingCount 50,000 the popularity estimate
is `min(5 + max(0, 50−5) + min(40,25) + min(5,20) + 5, 100) = 85`. -/
theorem popularity_example_amended :
    estimatePopularity "fitnes" [⟨"fitnes", 1, 80⟩] [⟨9/2, 50000⟩] = 85 := by
  have h : ("fitnes".length) = 6 := rfl
  norm_num [estimatePopularity, jsRound, List.find?, h]

end KeywordJobs
